import Mathlib

/-!
Verification of the piano-roll rendering core of the Arduino pitch detector
(`src/arduino-pitch_detector/pianoroll.cpp`).

The embedding models the module's static state (`_display`, `_distance`,
`_msecPerPixel`, `_msecOnScreen`, `_msecStart`) as a record `RollState`,
the geometry helpers `_resize`, `_time2x`, `_pitch2y` as pure functions on
that record, and the drawing entry points (`_displayRoll`, `PianoRoll::show`)
as functions returning a trace of drawing commands (`PaintOp`).  A pixel
semantics `applyOps` interprets a trace against a surface, which lets us
reason about pixel-identical output.

Machine integers: the repository's `coordinate_t.h`, `config.h`, `pitch.h`
and `segmentbuf.h` headers are not part of the sources, so coordinate,
time and pitch types are modelled as `Nat` (times in milliseconds, pixels,
MIDI pitches), matching the spec's plain-quantity reading; subtraction is
the truncated `Nat` subtraction, which agrees with the C code in the
wrap-free regime the spec describes.  `PITCH_MIN`, `PITCH_MAX` and
`Config::MIN_SEGMENT_DURATION` come from the missing headers and are kept
as parameters.
-/

/-- Color constant `COLOR_NOTESTART` (red), pianoroll.cpp line 29. -/
def COLOR_NOTESTART : Nat := 0xF800

/-- Color constant `COLOR_NOTE` (dark green), pianoroll.cpp line 30. -/
def COLOR_NOTE : Nat := 0x0700

/-- Color constant `COLOR_CURSOR` (blue), pianoroll.cpp line 31. -/
def COLOR_CURSOR : Nat := 0x001F

/-- Color constant `COLOR_ROLLC` (dark gray), pianoroll.cpp line 32. -/
def COLOR_ROLLC : Nat := 0x2104

/-- Color constant `COLOR_ROLLG` (gray), pianoroll.cpp line 33. -/
def COLOR_ROLLG : Nat := 0xC618

/-- Color constant `COLOR_ROLLOTHER` (light gray), pianoroll.cpp line 34. -/
def COLOR_ROLLOTHER : Nat := 0xF79E

/-- Color constant `COLOR_BG` (white), pianoroll.cpp line 35. -/
def COLOR_BG : Nat := 0xFFFF

/-- Character cell width, pianoroll.cpp line 49. -/
def CHAR_WIDTH : Nat := 6

/-- Character cell height, pianoroll.cpp line 50. -/
def CHAR_HEIGHT : Nat := 8

/-- Left margin reserved for note-name labels, pianoroll.cpp line 52:
`X_FIRSTNOTE = 2 * CHAR_WIDTH`. -/
def X_FIRSTNOTE : Nat := 2 * CHAR_WIDTH

/-- Worst-case per-tick processing time, local constant `maxLoopTime` of
`PianoRoll::show`, pianoroll.cpp line 154. -/
def maxLoopTime : Nat := 60

/-- Width of the note-onset marker, local constant `startLen` of
`PianoRoll::show`, pianoroll.cpp line 142. -/
def startLen : Nat := 2

/-- The module-level mutable state of pianoroll.cpp: `_display` (lines 39-42),
`_distance` (lines 44-47), `_msecPerPixel`, `_msecOnScreen`, `_msecStart`
(lines 57-59), together with the configured pitch range `PITCH_MIN` /
`PITCH_MAX` (lines 54-55, values come from the out-of-repo `config.h` /
`pitch.h`, hence kept as data here). -/
structure RollState where
  width : Nat
  height : Nat
  pitch2pitch : Nat
  bottom2loPitch : Nat
  msecPerPixel : Nat
  msecOnScreen : Nat
  msecStart : Nat
  pitchMin : Nat
  pitchMax : Nat
deriving DecidableEq

/-- One note segment as consumed from the external segment buffer
(`segment_t`): pitch, duration in msec, and onset gap in msec relative to
the previous (older) segment.  The `segmentbuf.h` header is not in the
sources; the record follows the spec's Note Segment data model. -/
structure Segment where
  pitch : Nat
  duration : Nat
  onset : Nat
deriving DecidableEq

/-- Embeds `_resize` (pianoroll.cpp lines 61-75): records the display size,
derives the vertical geometry from the pitch range, and derives the time
scale from `msecOnScreen = 2912` and the drawable width
`width - X_FIRSTNOTE`.  `pmin`, `pmax` are `PITCH_MIN`, `PITCH_MAX`; `ms`
is the unchanged `_msecStart`. -/
def _resize (pmin pmax ms : Nat) (width height : Nat) : RollState :=
  let nrOfPos := pmax - pmin + 1
  let p2p := height / nrOfPos
  let sWidth := width - X_FIRSTNOTE
  { width := width
    height := height
    pitch2pitch := p2p
    bottom2loPitch := (height - nrOfPos * p2p) / 2
    msecPerPixel := 2912 / sWidth
    msecOnScreen := 2912
    msecStart := ms
    pitchMin := pmin
    pitchMax := pmax }

/-- Embeds `_time2x` (pianoroll.cpp lines 78-85): the distance from the
left margin is `(t - msecStart - t0) / msecPerPixel` when
`t - msecStart > t0`, else `0`, and the result is `X_FIRSTNOTE` plus that
distance. -/
def _time2x (s : RollState) (t t0 : Nat) : Nat :=
  X_FIRSTNOTE + (if t0 < t - s.msecStart then (t - s.msecStart - t0) / s.msecPerPixel else 0)

/-- Embeds `_pitch2y` (pianoroll.cpp lines 88-94):
`height - bottom2loPitch - (pitch - PITCH_MIN) * pitch2pitch`. -/
def _pitch2y (s : RollState) (pitch : Nat) : Nat :=
  s.height - s.bottom2loPitch - (pitch - s.pitchMin) * s.pitch2pitch

/-- One drawing command issued against the display driver: the four
primitives pianoroll.cpp uses (`fillRect`, `drawFastHLine`,
`drawFastVLine`, `drawChar`). -/
inductive PaintOp where
  | rect (x y w h color : Nat)
  | hline (x y len color : Nat)
  | vline (x y len color : Nat)
  | char (x y : Nat) (c : Char) (fg bg scale : Nat)
deriving DecidableEq

/-- Embeds one iteration of the `_displayRoll` loop (pianoroll.cpp lines
103-127) for pitch `ii` as the list of drawing commands it issues.  The
`noteNr_t` enumeration lives in the out-of-repo `pitch.h`; following the
spec's pitch-class mapping, note C is pitch class `0` and note G is pitch
class `7` of `ii % 12`. -/
def _displayRollRow (s : RollState) (xLeft xRight : Nat) (ii : Nat) : List PaintOp :=
  let isC : Bool := ii % 12 == 0
  let isG : Bool := ii % 12 == 7
  let color : Nat := if isC then COLOR_ROLLC else if isG then COLOR_ROLLG else COLOR_ROLLOTHER
  let y : Nat := _pitch2y s ii
  let labelOps : List PaintOp :=
    if xLeft == 0 && (isC || isG) then
      let octave := ii / 12
      let cY := y - CHAR_HEIGHT / 2 + 1
      [PaintOp.char 0 cY (if isC then 'C' else 'G') color color 1,
       PaintOp.char CHAR_WIDTH cY (Char.ofNat ('0'.toNat + octave)) color color 1]
    else []
  let x : Nat := if xLeft == 0 then X_FIRSTNOTE else xLeft
  labelOps ++ [PaintOp.hline x y (xRight - xLeft) color]

/-- Embeds `_displayRoll` (pianoroll.cpp lines 97-128): for every pitch
from `PITCH_MIN` to `PITCH_MAX` inclusive, emit that row's commands. -/
def _displayRoll (s : RollState) (xLeft xWidth : Nat) : List PaintOp :=
  (List.range' s.pitchMin (s.pitchMax + 1 - s.pitchMin)).flatMap
    (_displayRollRow s xLeft (xLeft + xWidth))

/-- Wraparound left-edge time of `PianoRoll::show` (pianoroll.cpp lines
139-140): `t0 = ((now - msecStart) / msecOnScreen) * msecOnScreen`. -/
def t0Of (s : RollState) (now : Nat) : Nat :=
  ((now - s.msecStart) / s.msecOnScreen) * s.msecOnScreen

/-- Cursor column of `PianoRoll::show` (pianoroll.cpp line 141):
`cursor = _time2x(now, t0)`. -/
def cursorOf (s : RollState) (now : Nat) : Nat :=
  _time2x s now (t0Of s now)

/-- Width of the wipe region right of the cursor (pianoroll.cpp line 145):
`min(width / 20, width - cursor)`. -/
def wipeOf (s : RollState) (now : Nat) : Nat :=
  min (s.width / 20) (s.width - cursorOf s now)

/-- Width in msec of the trailing redraw window (pianoroll.cpp line 155):
`min(MIN_SEGMENT_DURATION + maxLoopTime, (cursor - X_FIRSTNOTE) * msecPerPixel)`.
`msd` stands for the out-of-repo `Config::MIN_SEGMENT_DURATION`. -/
def drawInMsecOf (s : RollState) (msd now : Nat) : Nat :=
  min (msd + maxLoopTime) ((cursorOf s now - X_FIRSTNOTE) * s.msecPerPixel)

/-- Width in pixels of the trailing redraw window (pianoroll.cpp line 156):
`drawInMsec / msecPerPixel`. -/
def drawInPixelsOf (s : RollState) (msd now : Nat) : Nat :=
  drawInMsecOf s msd now / s.msecPerPixel

/-- Embeds the note loop of `PianoRoll::show` (pianoroll.cpp lines
160-179).  The external `SegmentBuf::headPtr` accessor is modelled by a
`List Segment` ordered newest-first, so exhaustion (`headPtr` returning
null) is the `[]` case.  While the running `offset` satisfies
`offset > now - drawInMsec`, each segment emits its note-body rectangle
and its note-onset rectangle and the offset advances to
`onset - note.onset` with `onset = offset - note.duration`. -/
def showNotes (s : RollState) (t0 now drawInMsec : Nat) :
    Nat → List Segment → List PaintOp
  | _, [] => []
  | offset, note :: rest =>
    if now - drawInMsec < offset then
      let onset := offset - note.duration
      let xLeft := _time2x s onset t0
      let xWidth := _time2x s offset t0 - xLeft
      let yTop := _pitch2y s note.pitch + s.pitch2pitch / 2
      PaintOp.rect (xLeft + startLen) yTop (xWidth - startLen) s.pitch2pitch COLOR_NOTE ::
      PaintOp.rect xLeft yTop startLen s.pitch2pitch COLOR_NOTESTART ::
      showNotes s t0 now drawInMsec (onset - note.onset) rest
    else []

/-- Embeds `PianoRoll::show` (pianoroll.cpp lines 133-180) as the trace of
drawing commands of one refresh tick: wipe ahead of the cursor, cursor
line, erase of the trailing window, grid redraw of the trailing window,
then the note rectangles.  `msd` is `Config::MIN_SEGMENT_DURATION`, `now`
is the `millis()` reading, `buf` the segment history newest-first. -/
def showRoll (s : RollState) (msd now lastOffset : Nat) (buf : List Segment) : List PaintOp :=
  let t0 := t0Of s now
  let cursor := cursorOf s now
  let drawInPixels := drawInPixelsOf s msd now
  PaintOp.rect cursor 0 (wipeOf s now) s.height COLOR_BG ::
  PaintOp.vline (cursor + 1) 0 s.height COLOR_CURSOR ::
  PaintOp.rect (cursor - drawInPixels) 0 drawInPixels s.height COLOR_BG ::
  (_displayRoll s (cursor - drawInPixels) drawInPixels ++
    showNotes s t0 now (drawInMsecOf s msd now) lastOffset buf)

/-- A raster surface: color at each pixel coordinate. -/
def Surface : Type := Nat → Nat → Nat

/-- The surface filled with the background color, as left by
`fillScreen(COLOR_BG)` in `PianoRoll::clear` (pianoroll.cpp line 185). -/
def clearedSurface : Surface := fun _ _ => COLOR_BG

/-- Whether a drawing command writes the pixel `(px, py)`.  Rectangles,
horizontal lines and vertical lines cover exactly their extent.
Modelled from the spec: `draw_char(x,y,char,fg,bg,scale)` is an external
driver primitive (Adafruit GFX, not in the sources); it covers its
character cell of `CHAR_WIDTH * scale` by `CHAR_HEIGHT * scale` pixels. -/
def covers (op : PaintOp) (px py : Nat) : Bool :=
  match op with
  | .rect x y w h _ => decide (x ≤ px ∧ px < x + w ∧ y ≤ py ∧ py < y + h)
  | .hline x y len _ => decide (x ≤ px ∧ px < x + len ∧ py = y)
  | .vline x y len _ => decide (px = x ∧ y ≤ py ∧ py < y + len)
  | .char x y _ _ _ scale =>
      decide (x ≤ px ∧ px < x + CHAR_WIDTH * scale ∧ y ≤ py ∧ py < y + CHAR_HEIGHT * scale)

/-- Color a drawing command writes at a pixel it covers.  Modelled from
the spec for `draw_char`: glyph pixels get the foreground color and the
rest of the cell the background color, where `glyph` abstracts the
driver's font bitmap (external to the sources). -/
def colorAt (glyph : Char → Nat → Nat → Bool) (op : PaintOp) (px py : Nat) : Nat :=
  match op with
  | .rect _ _ _ _ c => c
  | .hline _ _ _ c => c
  | .vline _ _ _ c => c
  | .char x y c fg bg _ => if glyph c (px - x) (py - y) then fg else bg

/-- Interprets one drawing command against a surface: covered pixels take
the command's color, the rest keep their previous color. -/
def paint (glyph : Char → Nat → Nat → Bool) (op : PaintOp) (s : Surface) : Surface :=
  fun px py => if covers op px py then colorAt glyph op px py else s px py

/-- Interprets a trace of drawing commands in order against a surface. -/
def applyOps (glyph : Char → Nat → Nat → Bool) (ops : List PaintOp) (s : Surface) : Surface :=
  ops.foldl (fun s op => paint glyph op s) s

example : _time2x (_resize 40 52 0 312 130) 100 0 = 23 := by decide
example : _pitch2y (_resize 40 52 0 312 130) 40 = 130 := by decide
example : _pitch2y (_resize 40 52 0 312 130) 52 = 10 := by decide
example : (_resize 40 52 0 312 130).msecPerPixel = 9 := by decide

/-- Claim C1 (counterexample): the spec's scenario asserts
`pitch_to_y(40) = 120` for `PITCH_MIN = 40`, `PITCH_MAX = 52`,
`height = 130`, but the code yields
`130 - 0 - (40 - 40) * 10 = 130`. -/
theorem C1_counterexample :
    _pitch2y (_resize 40 52 0 160 130) 40 ≠ 120 := by decide

/-- Claim C1 (amended): `_pitch2y` computes
`height - bottom2loPitch - (pitch - PITCH_MIN) * pitch2pitch`, where
`_resize` derives `pitch2pitch = height / (PITCH_MAX - PITCH_MIN + 1)` and
`bottom2loPitch = (height - rowCount * pitch2pitch) / 2`; for
`PITCH_MIN = 40`, `PITCH_MAX = 52`, `height = 130` this yields
`pitch2pitch = 10`, `bottom2loPitch = 0`, `_pitch2y 40 = 130` and
`_pitch2y 52 = 10` (the spec's scenario values 120 and 0 are off by one
row). -/
theorem C1_pitch2y_formula (pmin pmax ms w h pitch : Nat) :
    (_resize pmin pmax ms w h).pitch2pitch = h / (pmax - pmin + 1) ∧
    (_resize pmin pmax ms w h).bottom2loPitch =
      (h - (pmax - pmin + 1) * (_resize pmin pmax ms w h).pitch2pitch) / 2 ∧
    _pitch2y (_resize pmin pmax ms w h) pitch =
      h - (_resize pmin pmax ms w h).bottom2loPitch -
        (pitch - pmin) * (_resize pmin pmax ms w h).pitch2pitch ∧
    (_resize 40 52 ms w 130).pitch2pitch = 10 ∧
    (_resize 40 52 ms w 130).bottom2loPitch = 0 ∧
    _pitch2y (_resize 40 52 ms w 130) 40 = 130 ∧
    _pitch2y (_resize 40 52 ms w 130) 52 = 10 := by
  refine ⟨rfl, rfl, rfl, ?_, ?_, ?_, ?_⟩ <;> simp [_resize, _pitch2y]

/-- Claim C2: for `t0 ≤ t` (and a positive time scale), `_time2x` is at
least `X_FIRSTNOTE`; when `t - msecStart ≤ t0` it equals exactly
`X_FIRSTNOTE`, and otherwise it equals
`X_FIRSTNOTE + (t - msecStart - t0) / msecPerPixel` with flooring integer
division. -/
theorem C2_time2x_clamp (s : RollState) (t t0 : Nat)
    (ht : t0 ≤ t) (hm : 0 < s.msecPerPixel) :
    X_FIRSTNOTE ≤ _time2x s t t0 ∧
    (t - s.msecStart ≤ t0 → _time2x s t t0 = X_FIRSTNOTE) ∧
    (t0 < t - s.msecStart →
      _time2x s t t0 = X_FIRSTNOTE + (t - s.msecStart - t0) / s.msecPerPixel) := by
  unfold _time2x
  refine ⟨Nat.le_add_right _ _, ?_, ?_⟩ <;> intro h
  · rw [if_neg (by omega), Nat.add_zero]
  · rw [if_pos h]

/-- Witness for C2 at `t = 100`, `t0 = 50` on the state resized to
`312 × 130` with pitch range `40..52` and epoch `0`. -/
theorem C2_witness :
    ((50 : Nat) ≤ 100 ∧ 0 < (_resize 40 52 0 312 130).msecPerPixel) ∧
    (X_FIRSTNOTE ≤ _time2x (_resize 40 52 0 312 130) 100 50 ∧
     (100 - (_resize 40 52 0 312 130).msecStart ≤ 50 →
       _time2x (_resize 40 52 0 312 130) 100 50 = X_FIRSTNOTE) ∧
     (50 < 100 - (_resize 40 52 0 312 130).msecStart →
       _time2x (_resize 40 52 0 312 130) 100 50 =
         X_FIRSTNOTE + (100 - (_resize 40 52 0 312 130).msecStart - 50) /
           (_resize 40 52 0 312 130).msecPerPixel)) :=
  ⟨⟨by decide, by decide⟩,
   C2_time2x_clamp (_resize 40 52 0 312 130) 100 50 (by decide) (by decide)⟩

/-- Claim C4: on a refresh tick the trailing redraw window is
`drawInMsec = min(minSegmentDuration + maxLoopTime,
(cursor - X_FIRSTNOTE) * msecPerPixel)` msec, converted to
`drawInPixels = drawInMsec / msecPerPixel` pixels, and `drawInMsec` never
exceeds `(cursor - X_FIRSTNOTE) * msecPerPixel`. -/
theorem C4_trailing_window (s : RollState) (msd now : Nat) :
    drawInMsecOf s msd now =
      min (msd + maxLoopTime) ((cursorOf s now - X_FIRSTNOTE) * s.msecPerPixel) ∧
    drawInPixelsOf s msd now = drawInMsecOf s msd now / s.msecPerPixel ∧
    drawInMsecOf s msd now ≤ (cursorOf s now - X_FIRSTNOTE) * s.msecPerPixel :=
  ⟨rfl, rfl, Nat.min_le_right _ _⟩

/-- Claim C6: `_resize` fixes `msecOnScreen = 2912` and derives
`msecPerPixel = msecOnScreen / (width - X_FIRSTNOTE)`; with a drawable
width of `312 - X_FIRSTNOTE = 300` pixels this gives `msecPerPixel = 9`,
and `_time2x` at `t = msecStart + 100`, `t0 = 0` returns
`X_FIRSTNOTE + 11`. -/
theorem C6_time_scale (pmin pmax ms w h : Nat) :
    (_resize pmin pmax ms w h).msecOnScreen = 2912 ∧
    (_resize pmin pmax ms w h).msecPerPixel = 2912 / (w - X_FIRSTNOTE) ∧
    (_resize pmin pmax ms 312 h).msecPerPixel = 9 ∧
    _time2x (_resize pmin pmax ms 312 h) (ms + 100) 0 = X_FIRSTNOTE + 11 := by
  refine ⟨rfl, rfl, ?_, ?_⟩
  · simp only [_resize]
    decide
  · simp [_resize, _time2x]
    decide

/-- Claim C7: on every refresh tick, the first command of the trace is the
background-colored wipe rectangle at the cursor of width
`min(width / 20, width - cursor)`, which never exceeds the remaining
screen width right of the cursor. -/
theorem C7_wipe_region (s : RollState) (msd now lastOffset : Nat) (buf : List Segment) :
    (showRoll s msd now lastOffset buf).head? =
      some (PaintOp.rect (cursorOf s now) 0
        (min (s.width / 20) (s.width - cursorOf s now)) s.height COLOR_BG) ∧
    wipeOf s now ≤ s.width - cursorOf s now :=
  ⟨rfl, Nat.min_le_right _ _⟩

/-- Sample state for concrete witnesses: pitch range `40..52`, epoch `0`,
display resized to `312 × 130` (so `msecPerPixel = 9`). -/
def sState : RollState := _resize 40 52 0 312 130

/-- Claim C3: the note renderer walks the history newest-first with a
running offset starting at `lastOffset`; each in-window segment draws its
body and onset rectangles between `_time2x (offset - duration)` and
`_time2x offset`, and the offset advances to
`offset - duration - segment.onset`.  For the one-segment history
`[{pitch 45, duration 200, onset 0}]` with `lastOffset = msecStart + 2000`
inside the trailing window, exactly one note bar is drawn with onset
`msecStart + 1800`, spanning `_time2x (msecStart + 1800) t0` to
`_time2x (msecStart + 2000) t0`. -/
theorem C3_note_walk (s : RollState) (t0 now drawInMsec off : Nat)
    (note : Segment) (rest : List Segment)
    (hoff : now - drawInMsec < off)
    (hsc : now - drawInMsec < s.msecStart + 2000) :
    showNotes s t0 now drawInMsec off (note :: rest) =
      PaintOp.rect (_time2x s (off - note.duration) t0 + startLen)
          (_pitch2y s note.pitch + s.pitch2pitch / 2)
          (_time2x s off t0 - _time2x s (off - note.duration) t0 - startLen)
          s.pitch2pitch COLOR_NOTE ::
        PaintOp.rect (_time2x s (off - note.duration) t0)
          (_pitch2y s note.pitch + s.pitch2pitch / 2)
          startLen s.pitch2pitch COLOR_NOTESTART ::
        showNotes s t0 now drawInMsec (off - note.duration - note.onset) rest ∧
    showNotes s t0 now drawInMsec (s.msecStart + 2000) [⟨45, 200, 0⟩] =
      [PaintOp.rect (_time2x s (s.msecStart + 1800) t0 + startLen)
          (_pitch2y s 45 + s.pitch2pitch / 2)
          (_time2x s (s.msecStart + 2000) t0 - _time2x s (s.msecStart + 1800) t0 - startLen)
          s.pitch2pitch COLOR_NOTE,
       PaintOp.rect (_time2x s (s.msecStart + 1800) t0)
          (_pitch2y s 45 + s.pitch2pitch / 2)
          startLen s.pitch2pitch COLOR_NOTESTART] := by
  constructor
  · conv_lhs => simp only [showNotes]
    rw [if_pos hoff]
  · have h18 : s.msecStart + 2000 - 200 = s.msecStart + 1800 := by omega
    simp only [showNotes, if_pos hsc, Nat.sub_zero, h18]

/-- Witness for C3 on `sState` with `t0 = 0`, `now = 2000`,
`drawInMsec = 300`, `off = 2000`, history `[{45, 200, 0}]`. -/
theorem C3_witness :
    ((2000 - 300 < (2000 : Nat)) ∧ (2000 - 300 < sState.msecStart + 2000)) ∧
    (showNotes sState 0 2000 300 2000 ((⟨45, 200, 0⟩ : Segment) :: []) =
      PaintOp.rect (_time2x sState (2000 - (⟨45, 200, 0⟩ : Segment).duration) 0 + startLen)
          (_pitch2y sState (⟨45, 200, 0⟩ : Segment).pitch + sState.pitch2pitch / 2)
          (_time2x sState 2000 0 -
            _time2x sState (2000 - (⟨45, 200, 0⟩ : Segment).duration) 0 - startLen)
          sState.pitch2pitch COLOR_NOTE ::
        PaintOp.rect (_time2x sState (2000 - (⟨45, 200, 0⟩ : Segment).duration) 0)
          (_pitch2y sState (⟨45, 200, 0⟩ : Segment).pitch + sState.pitch2pitch / 2)
          startLen sState.pitch2pitch COLOR_NOTESTART ::
        showNotes sState 0 2000 300
          (2000 - (⟨45, 200, 0⟩ : Segment).duration - (⟨45, 200, 0⟩ : Segment).onset) [] ∧
     showNotes sState 0 2000 300 (sState.msecStart + 2000) [⟨45, 200, 0⟩] =
      [PaintOp.rect (_time2x sState (sState.msecStart + 1800) 0 + startLen)
          (_pitch2y sState 45 + sState.pitch2pitch / 2)
          (_time2x sState (sState.msecStart + 2000) 0 -
            _time2x sState (sState.msecStart + 1800) 0 - startLen)
          sState.pitch2pitch COLOR_NOTE,
       PaintOp.rect (_time2x sState (sState.msecStart + 1800) 0)
          (_pitch2y sState 45 + sState.pitch2pitch / 2)
          startLen sState.pitch2pitch COLOR_NOTESTART]) :=
  ⟨⟨by decide, by decide⟩,
   C3_note_walk sState 0 2000 300 2000 ⟨45, 200, 0⟩ [] (by decide) (by decide)⟩

/-- Claim C5: the note loop stops exactly when the history accessor is
exhausted or the running offset satisfies `offset ≤ now - drawInMsec`;
with an empty history it draws zero rectangles. -/
theorem C5_loop_termination (s : RollState) (t0 now drawInMsec off : Nat)
    (buf : List Segment) :
    showNotes s t0 now drawInMsec off [] = [] ∧
    (showNotes s t0 now drawInMsec off buf = [] ↔
      buf = [] ∨ off ≤ now - drawInMsec) := by
  refine ⟨rfl, ?_⟩
  cases buf with
  | nil => simp [showNotes]
  | cons note rest =>
    simp only [showNotes]
    by_cases h : now - drawInMsec < off
    · rw [if_pos h]
      simp
      omega
    · rw [if_neg h]
      simp
      omega

/-- Claim C9: with a positive time scale, the trailing redraw width in
pixels is at most `cursor - X_FIRSTNOTE`, so the erased-and-redrawn span
starting at `cursor - drawInPixels` never extends left of the
`X_FIRSTNOTE` label margin. -/
theorem C9_redraw_stays_right_of_margin (s : RollState) (msd now : Nat)
    (h : 0 < s.msecPerPixel) :
    drawInPixelsOf s msd now ≤ cursorOf s now - X_FIRSTNOTE ∧
    X_FIRSTNOTE ≤ cursorOf s now - drawInPixelsOf s msd now := by
  have h1 : drawInMsecOf s msd now ≤ (cursorOf s now - X_FIRSTNOTE) * s.msecPerPixel :=
    Nat.min_le_right _ _
  have h2 : drawInPixelsOf s msd now ≤ cursorOf s now - X_FIRSTNOTE := by
    have h3 : drawInMsecOf s msd now / s.msecPerPixel ≤
        (cursorOf s now - X_FIRSTNOTE) * s.msecPerPixel / s.msecPerPixel :=
      Nat.div_le_div_right h1
    rwa [Nat.mul_div_cancel _ h] at h3
  have h4 : X_FIRSTNOTE ≤ cursorOf s now := by
    unfold cursorOf _time2x
    exact Nat.le_add_right _ _
  exact ⟨h2, by omega⟩

/-- Witness for C9 on `sState` with `msd = 40`, `now = 2000`. -/
theorem C9_witness :
    (0 < sState.msecPerPixel) ∧
    (drawInPixelsOf sState 40 2000 ≤ cursorOf sState 2000 - X_FIRSTNOTE ∧
     X_FIRSTNOTE ≤ cursorOf sState 2000 - drawInPixelsOf sState 40 2000) :=
  ⟨by decide, C9_redraw_stays_right_of_margin sState 40 2000 (by decide)⟩

/-- Claim C10: if at the start of a refresh tick
`lastOffset ≤ now - drawInMsec`, the note renderer draws zero rectangles
even on a non-empty history, because the offset bound is tested with
`offset = lastOffset` before any segment is painted. -/
theorem C10_stale_lastOffset_draws_nothing (s : RollState)
    (msd now lastOffset : Nat) (note : Segment) (rest : List Segment)
    (h : lastOffset ≤ now - drawInMsecOf s msd now) :
    showNotes s (t0Of s now) now (drawInMsecOf s msd now) lastOffset (note :: rest) = [] := by
  simp only [showNotes]
  rw [if_neg (by omega)]

/-- Witness for C10 on `sState` with `msd = 40`, `now = 2000`,
`lastOffset = 1900` and a non-empty history. -/
theorem C10_witness :
    (1900 ≤ 2000 - drawInMsecOf sState 40 2000) ∧
    showNotes sState (t0Of sState 2000) 2000 (drawInMsecOf sState 40 2000) 1900
      ((⟨45, 200, 0⟩ : Segment) :: []) = [] :=
  ⟨by decide,
   C10_stale_lastOffset_draws_nothing sState 40 2000 1900 ⟨45, 200, 0⟩ [] (by decide)⟩

/-- Unfolding step of `applyOps` on a cons trace. -/
lemma applyOps_cons (glyph : Char → Nat → Nat → Bool) (op : PaintOp)
    (ops : List PaintOp) (s : Surface) :
    applyOps glyph (op :: ops) s = applyOps glyph ops (paint glyph op s) := rfl

/-- A pixel covered by no command of a trace keeps its color. -/
lemma applyOps_untouched (glyph : Char → Nat → Nat → Bool) (ops : List PaintOp)
    (s : Surface) (px py : Nat)
    (h : ∀ op ∈ ops, covers op px py = false) :
    applyOps glyph ops s px py = s px py := by
  induction ops generalizing s with
  | nil => rfl
  | cons op rest ih =>
    rw [applyOps_cons,
      ih (paint glyph op s) (fun op' h' => h op' (List.mem_cons_of_mem _ h'))]
    unfold paint
    rw [h op (List.mem_cons_self _ _)]
    simp

/-- The result of a trace depends on the input surface only at pixels no
command of the trace covers. -/
lemma applyOps_congr_uncovered (glyph : Char → Nat → Nat → Bool)
    (ops : List PaintOp) (s t : Surface)
    (h : ∀ px py, (∀ op ∈ ops, covers op px py = false) → s px py = t px py) :
    ∀ px py, applyOps glyph ops s px py = applyOps glyph ops t px py := by
  induction ops generalizing s t with
  | nil => exact fun px py => h px py (by simp)
  | cons op rest ih =>
    intro px py
    rw [applyOps_cons, applyOps_cons]
    refine ih (paint glyph op s) (paint glyph op t) ?_ px py
    intro qx qy hq
    unfold paint
    cases hcv : covers op qx qy with
    | true => simp
    | false =>
      simp only [Bool.false_eq_true, if_false]
      refine h qx qy ?_
      intro op' hop'
      rcases List.mem_cons.mp hop' with h1 | h1
      · rw [h1]; exact hcv
      · exact hq op' h1

/-- Replaying any trace leaves the surface exactly as the first replay
left it: covered pixels get their colors from the trace alone, uncovered
pixels are never touched. -/
lemma applyOps_idem (glyph : Char → Nat → Nat → Bool) (ops : List PaintOp)
    (s : Surface) :
    applyOps glyph ops (applyOps glyph ops s) = applyOps glyph ops s := by
  funext px py
  exact applyOps_congr_uncovered glyph ops (applyOps glyph ops s) s
    (fun qx qy hq => applyOps_untouched glyph ops s qx qy hq) px py

/-- Claim C8: `_displayRoll` is idempotent at the pixel level: for every
`xLeft` and `xWidth`, replaying its trace on the surface it produced from
the cleared surface changes nothing, for any font bitmap `glyph` the
external driver may use. -/
theorem C8_displayRoll_idempotent (glyph : Char → Nat → Nat → Bool)
    (s : RollState) (xLeft xWidth : Nat) :
    applyOps glyph (_displayRoll s xLeft xWidth)
        (applyOps glyph (_displayRoll s xLeft xWidth) clearedSurface) =
      applyOps glyph (_displayRoll s xLeft xWidth) clearedSurface :=
  applyOps_idem glyph (_displayRoll s xLeft xWidth) clearedSurface
